import Mathlib

set_option linter.unnecessarySeqFocus false

/-!
Shallow embedding of the Elusiv contracts
(`ElusivResearchDesk.sol`, `ElusivContributionDesk.sol`,
`ElusivCommunityPool.sol`) together with a standard ERC-20 ledger model,
and proofs of the specification's claims about them.

Addresses, token amounts and timestamps are modelled as `Nat`
(address `0` is the zero address).  Solidity `mapping`s are modelled as
association lists looked up by first match, so prepending a pair is the
map update.  Every external function is a total Lean function returning
`Except Err _`; an `Except.error` result is an EVM revert, i.e. the whole
call fails and no state change survives.
-/

/-- Failure causes: the contracts' custom errors, `require` messages,
the SafeERC20 transfer failure, and the Solidity 0.8 checked-arithmetic
underflow abort. -/
inductive Err where
  | requireMsg (msg : String)
  | invalidContribution
  | invalidValidator
  | notValidator
  | contributionNotUnderReview
  | reviewPeriodNotExpired
  | alreadyVoted
  | invalidPoolAddress
  | notOwner
  | transferFailed
  | invalidRequest
  | invalidRequester
  | poolInvalidAddress
  | poolNotAuthorized
  | poolInsufficientBalance
  | poolInvalidAmount
  | poolDeskNotSet
  | notApproved
  | notContributor
  | rewardAlreadyClaimed
  | underflow
  deriving DecidableEq, Repr

/-- `enum ContributionStatus { Pending, UnderReview, Approved, Rejected, Disputed }`. -/
inductive ContributionStatus where
  | Pending
  | UnderReview
  | Approved
  | Rejected
  | Disputed
  deriving DecidableEq, Repr

/-- `enum ValidatorVote { None, Approve, Reject }`. -/
inductive VoteChoice where
  | None
  | Approve
  | Reject
  deriving DecidableEq, Repr

/-- Association-list lookup with a default: the value of a Solidity
mapping at a key (`d` is the zero value of the range type). -/
def assocGet {κ α : Type} [DecidableEq κ] (m : List (κ × α)) (k : κ) (d : α) : α :=
  match m.find? (fun p => p.1 = k) with
  | some p => p.2
  | none => d

/-- Mapping update: prepend, shadowing any earlier binding of the key. -/
def assocSet {κ α : Type} [DecidableEq κ] (m : List (κ × α)) (k : κ) (v : α) :
    List (κ × α) :=
  (k, v) :: m

/-- Byte length of a string, as Solidity's `bytes(s).length`. -/
def bytesLen (s : String) : Nat := s.utf8ByteSize

/-- The external ERC-20 ledger: balances and allowances
(allowance key is `(owner, spender)`). -/
structure Ledger where
  balances : List (Nat × Nat)
  allowances : List ((Nat × Nat) × Nat)
  deriving DecidableEq, Repr

def balanceOf (l : Ledger) (a : Nat) : Nat := assocGet l.balances a 0

def allowanceOf (l : Ledger) (owner spender : Nat) : Nat :=
  assocGet l.allowances (owner, spender) 0

/-- ERC-20 `transfer` seen from `src`: fails (`none`) iff the balance is
insufficient; otherwise debits `src` then credits `dst`. -/
def Ledger.transfer (l : Ledger) (src dst amount : Nat) : Option Ledger :=
  if balanceOf l src < amount then none
  else
    let b1 := assocSet l.balances src (balanceOf l src - amount)
    let b2 := assocSet b1 dst (assocGet b1 dst 0 + amount)
    some { l with balances := b2 }

/-- ERC-20 `transferFrom` called by `spender`: fails iff the allowance or
the balance is insufficient; otherwise spends the allowance and transfers. -/
def Ledger.transferFrom (l : Ledger) (spender src dst amount : Nat) : Option Ledger :=
  let al := allowanceOf l src spender
  if al < amount then none
  else
    match l.transfer src dst amount with
    | none => none
    | some l' => some { l' with allowances := assocSet l'.allowances (src, spender) (al - amount) }

/-- `struct IndependentContribution` of `ElusivContributionDesk.sol`. -/
structure IndependentContribution where
  contributor : Nat
  title : String
  documentHash : String
  description : String
  submittedAt : Nat
  reviewDeadline : Nat
  rewardAmount : Nat
  status : ContributionStatus
  validators : List Nat
  approvalCount : Nat
  rejectionCount : Nat
  deriving DecidableEq, Repr

/-- Storage of `ElusivContributionDesk` (constants inlined as fields set at
construction; `rewardClaimed` is the fixed contract's `_rewardClaimed`
flag, see `claimReward`). -/
structure DeskState where
  owner : Nat
  communityPool : Nat
  reviewPeriod : Nat
  minValidatorsRequired : Nat
  maxValidators : Nat
  validators : List (Nat × Bool)
  validatorList : List Nat
  contributorStats : List (Nat × Nat)
  contributions : List IndependentContribution
  validatorVotes : List ((Nat × Nat) × VoteChoice)
  validatorVoteTimestamps : List ((Nat × Nat) × Nat)
  contributionValidators : List (Nat × List Nat)
  nextValidatorIndex : Nat
  rewardClaimed : List Nat
  deriving DecidableEq, Repr

/-- Storage of `ElusivCommunityPool` (its token balance lives in the
ledger at the pool's address, held in the desk's `communityPool` field). -/
structure PoolState where
  owner : Nat
  contributionDesk : Nat
  deriving DecidableEq, Repr

/-- The contribution-desk system: the desk contract (at address
`deskAddr`), the community-pool contract it pays from, and the token
ledger. -/
structure Sys where
  ledger : Ledger
  pool : PoolState
  desk : DeskState
  deskAddr : Nat
  deriving DecidableEq, Repr

def MAX_TITLE_LENGTH : Nat := 256
def MAX_DESCRIPTION_LENGTH : Nat := 1024

/-- `ElusivCommunityPool.withdraw(to, amount)` called by `sender`; the
pool's token address is the desk's configured `communityPool`. -/
def poolWithdraw (sys : Sys) (sender toAddr amount : Nat) : Except Err Sys :=
  if sys.pool.contributionDesk = 0 then .error .poolDeskNotSet
  else if sender ≠ sys.pool.contributionDesk ∧ sender ≠ sys.pool.owner then .error .poolNotAuthorized
  else if toAddr = 0 then .error .poolInvalidAddress
  else if amount = 0 then .error .poolInvalidAmount
  else if balanceOf sys.ledger sys.desk.communityPool < amount then .error .poolInsufficientBalance
  else
    match sys.ledger.transfer sys.desk.communityPool toAddr amount with
    | none => .error .transferFailed
    | some l' => .ok { sys with ledger := l' }

/-- `_assignValidators()`: up to `maxValidators` addresses from the
ordered validator list, starting at the rotation cursor, wrapping. -/
def assignValidators (s : DeskState) : List Nat :=
  let validatorCount := s.validatorList.length
  if validatorCount = 0 then []
  else
    let count := if s.maxValidators < validatorCount then s.maxValidators else validatorCount
    let startIndex := s.nextValidatorIndex % validatorCount
    (List.range count).map (fun i => s.validatorList.getD ((startIndex + i) % validatorCount) 0)

/-- `submitContribution(title, documentHash, description, rewardAmount)`. -/
def submitContribution (sys : Sys) (sender now : Nat)
    (title documentHash description : String) (rewardAmount : Nat) : Except Err Sys :=
  let s := sys.desk
  if bytesLen title = 0 then .error (.requireMsg "Title required")
  else if MAX_TITLE_LENGTH < bytesLen title then .error (.requireMsg "Title too long")
  else if bytesLen documentHash = 0 then .error (.requireMsg "Document hash required")
  else if MAX_DESCRIPTION_LENGTH < bytesLen description then .error (.requireMsg "Description too long")
  else if s.validatorList.length < s.minValidatorsRequired then .error (.requireMsg "Insufficient validators")
  else
    let contributionId := s.contributions.length
    let deadline := now + s.reviewPeriod
    let assigned := assignValidators s
    let denom := if 0 < s.validatorList.length then s.validatorList.length else 1
    let contrib : IndependentContribution :=
      { contributor := sender
        title := title
        documentHash := documentHash
        description := description
        submittedAt := now
        reviewDeadline := deadline
        rewardAmount := rewardAmount
        status := .UnderReview
        validators := assigned
        approvalCount := 0
        rejectionCount := 0 }
    .ok { sys with desk :=
      { s with
        nextValidatorIndex := (s.nextValidatorIndex + assigned.length) % denom
        contributions := s.contributions ++ [contrib]
        contributionValidators := assocSet s.contributionValidators contributionId assigned } }

/-- `_isAssignedValidator(contributionId, validator)`. -/
def isAssignedValidator (s : DeskState) (contributionId validator : Nat) : Bool :=
  (assocGet s.contributionValidators contributionId []).contains validator

/-- `_checkAndFinalize(contributionId)`: decide by quorum and, on an
approval with a funded pool, pay the reward (statistics update and the
`rewardClaimed` mark precede the pool withdrawal; the mark mirrors the
fixed contract's `_rewardClaimed`, cf. `claimReward`). -/
def checkAndFinalize (sys : Sys) (contributionId : Nat) : Except Err Sys :=
  match sys.desk.contributions[contributionId]? with
  | none => .error .invalidContribution
  | some contrib =>
    if contrib.status ≠ .UnderReview then .ok sys
    else
      let approved := sys.desk.minValidatorsRequired ≤ contrib.approvalCount
      if approved then
        let sys1 : Sys := { sys with desk := { sys.desk with
          contributions := sys.desk.contributions.set contributionId { contrib with status := .Approved } } }
        if 0 < contrib.rewardAmount ∧ sys.desk.communityPool ≠ 0 then
          let poolBalance := balanceOf sys.ledger sys.desk.communityPool
          if contrib.rewardAmount ≤ poolBalance then
            let sys2 : Sys := { sys1 with desk := { sys1.desk with
              contributorStats := assocSet sys1.desk.contributorStats contrib.contributor
                (assocGet sys1.desk.contributorStats contrib.contributor 0 + contrib.rewardAmount)
              rewardClaimed := contributionId :: sys1.desk.rewardClaimed } }
            poolWithdraw sys2 sys.deskAddr contrib.contributor contrib.rewardAmount
          else .ok sys1
        else .ok sys1
      else
        .ok { sys with desk := { sys.desk with
          contributions := sys.desk.contributions.set contributionId { contrib with status := .Rejected } } }

/-- `validatorVote(contributionId, approve)`. -/
def validatorVote (sys : Sys) (sender now contributionId : Nat) (approve : Bool) : Except Err Sys :=
  match sys.desk.contributions[contributionId]? with
  | none => .error .invalidContribution
  | some contrib =>
    if contrib.status ≠ .UnderReview then .error .contributionNotUnderReview
    else if assocGet sys.desk.validators sender false = false then .error .notValidator
    else if ¬ isAssignedValidator sys.desk contributionId sender then .error .notValidator
    else if assocGet sys.desk.validatorVotes (contributionId, sender) .None ≠ .None then .error .alreadyVoted
    else
      let vote : VoteChoice := if approve then .Approve else .Reject
      let contrib' := if approve
        then { contrib with approvalCount := contrib.approvalCount + 1 }
        else { contrib with rejectionCount := contrib.rejectionCount + 1 }
      let sys' : Sys := { sys with desk := { sys.desk with
        validatorVotes := assocSet sys.desk.validatorVotes (contributionId, sender) vote
        validatorVoteTimestamps := assocSet sys.desk.validatorVoteTimestamps (contributionId, sender) now
        contributions := sys.desk.contributions.set contributionId contrib' } }
      if contrib.reviewDeadline ≤ now then checkAndFinalize sys' contributionId else .ok sys'

/-- `finalizeContribution(contributionId)`. -/
def finalizeContribution (sys : Sys) (now contributionId : Nat) : Except Err Sys :=
  match sys.desk.contributions[contributionId]? with
  | none => .error .invalidContribution
  | some contrib =>
    if contrib.status ≠ .UnderReview then .error .contributionNotUnderReview
    else if now < contrib.reviewDeadline then .error .reviewPeriodNotExpired
    else checkAndFinalize sys contributionId

/-- `addValidator(validator)` (owner-only). -/
def addValidator (sys : Sys) (sender validator : Nat) : Except Err Sys :=
  if sender ≠ sys.desk.owner then .error .notOwner
  else if validator = 0 then .error .invalidValidator
  else if assocGet sys.desk.validators validator false = true then .error .invalidValidator
  else .ok { sys with desk := { sys.desk with
    validators := assocSet sys.desk.validators validator true
    validatorList := sys.desk.validatorList ++ [validator] } }

/-- `_removeFromValidatorList(validator)`: swap the first occurrence with
the last element, then pop. -/
def removeFromValidatorList (l : List Nat) (validator : Nat) : List Nat :=
  match l.findIdx? (fun x => x = validator) with
  | none => l
  | some i => (l.set i (l.getD (l.length - 1) 0)).dropLast

/-- `removeValidator(validator)` (owner-only). -/
def removeValidator (sys : Sys) (sender validator : Nat) : Except Err Sys :=
  if sender ≠ sys.desk.owner then .error .notOwner
  else if assocGet sys.desk.validators validator false = false then .error .invalidValidator
  else .ok { sys with desk := { sys.desk with
    validators := assocSet sys.desk.validators validator false
    validatorList := removeFromValidatorList sys.desk.validatorList validator } }

/-- `setMinValidatorsRequired(min)` (owner-only). -/
def setMinValidatorsRequired (sys : Sys) (sender min : Nat) : Except Err Sys :=
  if sender ≠ sys.desk.owner then .error .notOwner
  else if min = 0 then .error (.requireMsg "Min must be > 0")
  else if sys.desk.validatorList.length < min then .error (.requireMsg "Min exceeds validator count")
  else .ok { sys with desk := { sys.desk with minValidatorsRequired := min } }

/-- `setReviewPeriod(period)` (owner-only). -/
def setReviewPeriod (sys : Sys) (sender period : Nat) : Except Err Sys :=
  if sender ≠ sys.desk.owner then .error .notOwner
  else if period = 0 then .error (.requireMsg "Period must be > 0")
  else .ok { sys with desk := { sys.desk with reviewPeriod := period } }

/-- `setCommunityPool(pool)` (owner-only). -/
def setCommunityPool (sys : Sys) (sender pool : Nat) : Except Err Sys :=
  if sender ≠ sys.desk.owner then .error .notOwner
  else if pool = 0 then .error .invalidPoolAddress
  else .ok { sys with desk := { sys.desk with communityPool := pool } }

/-- `depositToPool(amount)`. -/
def depositToPool (sys : Sys) (sender amount : Nat) : Except Err Sys :=
  if sys.desk.communityPool = 0 then .error (.requireMsg "Pool not set")
  else if amount = 0 then .error (.requireMsg "Amount must be > 0")
  else
    match sys.ledger.transferFrom sys.deskAddr sender sys.desk.communityPool amount with
    | none => .error .transferFailed
    | some l' => .ok { sys with ledger := l' }

/-- Modelled from the spec: `claimReward(contributionId)` is part of the
fixed `ElusivContributionDesk` referenced by the repository's tests and
review notes but absent from the contract sources; per the spec it is
"callable only by the original contributor, only for an Approved
contribution whose reward was not already paid or claimed", it "re-checks
pool balance at claim time; if sufficient, pays out, marks claimed,
updates statistics; otherwise the claim must be retried later".  The
`rewardClaimed` mark covers both paid-at-finalization and claimed. -/
def claimReward (sys : Sys) (sender contributionId : Nat) : Except Err Sys :=
  match sys.desk.contributions[contributionId]? with
  | none => .error .invalidContribution
  | some contrib =>
    if contrib.status ≠ .Approved then .error .notApproved
    else if sys.desk.rewardClaimed.contains contributionId then .error .rewardAlreadyClaimed
    else if sender ≠ contrib.contributor then .error .notContributor
    else if balanceOf sys.ledger sys.desk.communityPool < contrib.rewardAmount then .error .poolInsufficientBalance
    else
      let sys2 : Sys := { sys with desk := { sys.desk with
        contributorStats := assocSet sys.desk.contributorStats contrib.contributor
          (assocGet sys.desk.contributorStats contrib.contributor 0 + contrib.rewardAmount)
        rewardClaimed := contributionId :: sys.desk.rewardClaimed } }
      poolWithdraw sys2 sys.deskAddr contrib.contributor contrib.rewardAmount

/-- `struct ResearchRequest` of `ElusivResearchDesk.sol`. -/
structure ResearchRequest where
  requester : Nat
  query : String
  response : String
  payment : Nat
  createdAt : Nat
  updatedAt : Nat
  fulfilled : Bool
  deriving DecidableEq, Repr

/-- Storage of `ElusivResearchDesk`. -/
structure RDesk where
  owner : Nat
  requestCost : Nat
  maxQueryLength : Nat
  requests : List ResearchRequest
  openRequestIds : List Nat
  openRequestIndex : List (Nat × Nat)
  pendingByUser : List (Nat × List Nat)
  pendingIndexByUser : List ((Nat × Nat) × Nat)
  deriving DecidableEq, Repr

/-- The research-desk system: the desk contract (at address `deskAddr`)
and the token ledger. -/
structure RSys where
  ledger : Ledger
  desk : RDesk
  deskAddr : Nat
  deriving DecidableEq, Repr

/-- `_trackPending(requestId, requester)`. -/
def trackPending (s : RDesk) (requestId requester : Nat) : RDesk :=
  let userList := assocGet s.pendingByUser requester []
  { s with
    openRequestIndex := assocSet s.openRequestIndex requestId s.openRequestIds.length
    openRequestIds := s.openRequestIds ++ [requestId]
    pendingIndexByUser := assocSet s.pendingIndexByUser (requester, requestId) userList.length
    pendingByUser := assocSet s.pendingByUser requester (userList ++ [requestId]) }

/-- `requestResearch(query)`: record the request and its open-tracking
entries, then pull the payment from the sender by transfer-from-allowance;
a failed pull reverts the whole call. -/
def requestResearch (sys : RSys) (sender now : Nat) (query : String) : Except Err RSys :=
  let s := sys.desk
  if bytesLen query = 0 then .error (.requireMsg "Query required")
  else if s.maxQueryLength < bytesLen query then .error (.requireMsg "Query too long")
  else if s.requestCost = 0 then .error (.requireMsg "Requests disabled")
  else
    let cost := s.requestCost
    let requestId := s.requests.length
    let s1 := { s with requests := s.requests ++
      [{ requester := sender
         query := query
         response := ""
         payment := cost
         createdAt := now
         updatedAt := now
         fulfilled := false }] }
    let s2 := trackPending s1 requestId sender
    match sys.ledger.transferFrom sys.deskAddr sender sys.deskAddr cost with
    | none => .error .transferFailed
    | some l' => .ok { sys with ledger := l', desk := s2 }

/-- `ElusivResearchDesk.withdraw(to, amount)` (owner-only): transfers
unconditionally up to the token balance, with no reservation check. -/
def rdWithdraw (sys : RSys) (sender toAddr amount : Nat) : Except Err RSys :=
  if sender ≠ sys.desk.owner then .error .notOwner
  else if toAddr = 0 then .error (.requireMsg "Invalid recipient")
  else
    match sys.ledger.transfer sys.deskAddr toAddr amount with
    | none => .error .transferFailed
    | some l' => .ok { sys with ledger := l' }

/-- The reserved amount of the spec: sum of `payment` over all
non-fulfilled requests. -/
def reservedSum (s : RDesk) : Nat :=
  (s.requests.filter (fun r => !r.fulfilled)).foldl (fun acc r => acc + r.payment) 0

/-- `struct ContributorStats` of `ElusivContributionDesk.sol`. -/
structure ContributorStatsEntry where
  contributor : Nat
  totalValue : Nat
  contributionCount : Nat
  deriving DecidableEq, Repr

/-- `_getApprovedContributionCount(contributor)`. -/
def getApprovedContributionCount (s : DeskState) (contributor : Nat) : Nat :=
  s.contributions.countP
    (fun c => decide (c.contributor = contributor ∧ c.status = ContributionStatus.Approved))

/-- One bubble pass of `_sortContributorsByValue`'s inner loop:
swap adjacent entries that are out of (descending) order. -/
def bubblePass : List ContributorStatsEntry → List ContributorStatsEntry
  | [] => []
  | [a] => [a]
  | a :: b :: rest =>
    if a.totalValue < b.totalValue then b :: bubblePass (a :: rest)
    else a :: bubblePass (b :: rest)
termination_by l => l.length

/-- The outer loop of `_sortContributorsByValue`: `n - 1` passes. -/
def bubbleIter : Nat → List ContributorStatsEntry → List ContributorStatsEntry
  | 0, l => l
  | n + 1, l => bubbleIter n (bubblePass l)

/-- `_sortContributorsByValue(stats)`: the outer loop bound `n - 1` is a
Solidity 0.8 checked subtraction, which aborts with an arithmetic
underflow when `n = 0`. -/
def sortContributorsByValue (stats : List ContributorStatsEntry) :
    Except Err (List ContributorStatsEntry) :=
  if stats.length = 0 then .error .underflow
  else .ok (bubbleIter (stats.length - 1) stats)

/-- The first-occurrence scan of `getTopContributors`: contributors of
Approved contributions, deduplicated in discovery order. -/
def uniqueApprovedContributors (cs : List IndependentContribution) : List Nat :=
  cs.foldl
    (fun acc c =>
      if c.status = ContributionStatus.Approved ∧ ¬ acc.contains c.contributor
      then acc ++ [c.contributor] else acc)
    []

/-- `getTopContributors(limit)`. -/
def getTopContributors (sys : Sys) (limit : Nat) :
    Except Err (List ContributorStatsEntry) :=
  let s := sys.desk
  if s.validatorList.length = 0 then .ok []
  else
    let allContributors := uniqueApprovedContributors s.contributions
    let stats := allContributors.map (fun a =>
      { contributor := a
        totalValue := assocGet s.contributorStats a 0
        contributionCount := getApprovedContributionCount s a : ContributorStatsEntry })
    match sortContributorsByValue stats with
    | .error e => .error e
    | .ok sorted => .ok (sorted.take limit)

/-- The state-mutating operations reachable on the contribution-desk
system, for quantifying over call sequences. -/
inductive DeskOp where
  | submit (sender now : Nat) (title documentHash description : String) (rewardAmount : Nat)
  | vote (sender now contributionId : Nat) (approve : Bool)
  | finalize (now contributionId : Nat)
  | addVal (sender validator : Nat)
  | removeVal (sender validator : Nat)
  | setMinVals (sender min : Nat)
  | setPeriod (sender period : Nat)
  | setPool (sender pool : Nat)
  | deposit (sender amount : Nat)
  | claim (sender contributionId : Nat)
  | transferTok (src dst amount : Nat)
  deriving DecidableEq, Repr

def applyOp (sys : Sys) : DeskOp → Except Err Sys
  | .submit sender now t d de r => submitContribution sys sender now t d de r
  | .vote sender now id a => validatorVote sys sender now id a
  | .finalize now id => finalizeContribution sys now id
  | .addVal s v => addValidator sys s v
  | .removeVal s v => removeValidator sys s v
  | .setMinVals s m => setMinValidatorsRequired sys s m
  | .setPeriod s p => setReviewPeriod sys s p
  | .setPool s p => setCommunityPool sys s p
  | .deposit s a => depositToPool sys s a
  | .claim s id => claimReward sys s id
  | .transferTok src dst a =>
    match sys.ledger.transfer src dst a with
    | none => .error .transferFailed
    | some l => .ok { sys with ledger := l }

/-- EVM call semantics: a reverted call leaves the state unchanged. -/
def runOp (sys : Sys) (op : DeskOp) : Sys :=
  match applyOp sys op with
  | .ok s' => s'
  | .error _ => sys

def runOps (sys : Sys) (ops : List DeskOp) : Sys := ops.foldl runOp sys

/-! ## Basic lemmas about the operations -/

theorem poolWithdraw_ok_frame {sys sys' : Sys} {s t a : Nat}
    (h : poolWithdraw sys s t a = .ok sys') :
    sys'.desk = sys.desk ∧ sys'.pool = sys.pool ∧ sys'.deskAddr = sys.deskAddr := by
  unfold poolWithdraw at h
  split_ifs at h <;> try exact Except.noConfusion h
  split at h
  · exact Except.noConfusion h
  · simp only [Except.ok.injEq] at h
    subst h
    exact ⟨rfl, rfl, rfl⟩

/-- `_checkAndFinalize` on an `UnderReview` contribution that returns
successfully sets exactly the quorum-decided status. -/
theorem checkAndFinalize_ok_spec {sys sys' : Sys} {id : Nat} {c : IndependentContribution}
    (h : checkAndFinalize sys id = .ok sys')
    (hc : sys.desk.contributions[id]? = some c)
    (hur : c.status = .UnderReview) :
    sys'.desk.contributions = sys.desk.contributions.set id
      { c with status := if sys.desk.minValidatorsRequired ≤ c.approvalCount
                         then .Approved else .Rejected } := by
  unfold checkAndFinalize at h
  rw [hc] at h
  simp only [hur] at h
  split at h
  · next hne => simp at hne
  · split at h
    · next happ =>
      rw [if_pos happ]
      split at h
      · split at h
        · rcases poolWithdraw_ok_frame h with ⟨hd, _, _⟩
          rw [hd]
        · simp only [Except.ok.injEq] at h
          subst h; rfl
      · simp only [Except.ok.injEq] at h
        subst h; rfl
    · next happ =>
      rw [if_neg happ]
      simp only [Except.ok.injEq] at h
      subst h; rfl

/-- `_checkAndFinalize` leaves a non-`UnderReview` contribution alone. -/
theorem checkAndFinalize_skip {sys : Sys} {id : Nat} {c : IndependentContribution}
    (hc : sys.desk.contributions[id]? = some c)
    (hst : c.status ≠ .UnderReview) :
    checkAndFinalize sys id = .ok sys := by
  unfold checkAndFinalize
  rw [hc]
  simp [hst]

theorem finalizeContribution_ok_unfold {sys sys' : Sys} {now id : Nat}
    (h : finalizeContribution sys now id = .ok sys') :
    ∃ c, sys.desk.contributions[id]? = some c ∧ c.status = .UnderReview ∧
      c.reviewDeadline ≤ now ∧ checkAndFinalize sys id = .ok sys' := by
  unfold finalizeContribution at h
  split at h
  · exact Except.noConfusion h
  · next contrib hc =>
    split_ifs at h <;> try exact Except.noConfusion h
    next h1 h2 =>
    exact ⟨contrib, hc, not_not.mp h1, not_lt.mp h2, h⟩

theorem finalizeContribution_terminal_err {sys : Sys} {now id : Nat}
    {c : IndependentContribution}
    (hc : sys.desk.contributions[id]? = some c) (hst : c.status ≠ .UnderReview) :
    finalizeContribution sys now id = .error .contributionNotUnderReview := by
  unfold finalizeContribution
  rw [hc]
  simp [hst]

theorem validatorVote_terminal_err {sys : Sys} {sender now id : Nat} {approve : Bool}
    {c : IndependentContribution}
    (hc : sys.desk.contributions[id]? = some c) (hst : c.status ≠ .UnderReview) :
    validatorVote sys sender now id approve = .error .contributionNotUnderReview := by
  unfold validatorVote
  rw [hc]
  simp [hst]

theorem validatorVote_ok_unfold {sys sys' : Sys} {sender now id : Nat} {approve : Bool}
    (h : validatorVote sys sender now id approve = .ok sys') :
    ∃ c, sys.desk.contributions[id]? = some c ∧ c.status = .UnderReview ∧
      assocGet sys.desk.validators sender false = true ∧
      isAssignedValidator sys.desk id sender = true ∧
      assocGet sys.desk.validatorVotes (id, sender) .None = .None ∧
      (let contrib' := if approve then { c with approvalCount := c.approvalCount + 1 }
                       else { c with rejectionCount := c.rejectionCount + 1 }
       let sysMid : Sys := { sys with desk := { sys.desk with
         validatorVotes := assocSet sys.desk.validatorVotes (id, sender)
           (if approve then .Approve else .Reject)
         validatorVoteTimestamps := assocSet sys.desk.validatorVoteTimestamps (id, sender) now
         contributions := sys.desk.contributions.set id contrib' } }
       ((c.reviewDeadline ≤ now ∧ checkAndFinalize sysMid id = .ok sys') ∨
        (now < c.reviewDeadline ∧ sys' = sysMid))) := by
  unfold validatorVote at h
  split at h
  · exact Except.noConfusion h
  · next contrib hc =>
    dsimp only [] at h
    split at h
    · exact Except.noConfusion h
    next h1 =>
    split at h
    · exact Except.noConfusion h
    next h2 =>
    split at h
    · exact Except.noConfusion h
    next h3 =>
    split at h
    · exact Except.noConfusion h
    next h4 =>
    refine ⟨contrib, hc, not_not.mp h1, ?_, ?_, not_not.mp h4, ?_⟩
    · revert h2
      cases assocGet sys.desk.validators sender false <;> simp
    · revert h3
      cases isAssignedValidator sys.desk id sender <;> simp
    · dsimp only []
      split at h
      · next hd => exact Or.inl ⟨hd, h⟩
      · next hd =>
        simp only [Except.ok.injEq] at h
        exact Or.inr ⟨not_le.mp hd, h.symm⟩

theorem submitContribution_ok_contribs {sys sys' : Sys} {sender now : Nat}
    {t d de : String} {r : Nat}
    (h : submitContribution sys sender now t d de r = .ok sys') :
    ∃ newc : IndependentContribution, newc.status = .UnderReview ∧
      sys'.desk.contributions = sys.desk.contributions ++ [newc] := by
  unfold submitContribution at h
  dsimp only [] at h
  repeat (split at h <;> try exact Except.noConfusion h)
  all_goals simp only [Except.ok.injEq] at h
  all_goals subst h
  all_goals exact ⟨_, rfl, rfl⟩

theorem addValidator_ok_frame {sys sys' : Sys} {s v : Nat}
    (h : addValidator sys s v = .ok sys') :
    sys'.desk.contributions = sys.desk.contributions ∧
    sys'.desk.contributionValidators = sys.desk.contributionValidators := by
  unfold addValidator at h
  split_ifs at h <;> try exact Except.noConfusion h
  simp only [Except.ok.injEq] at h
  subst h
  exact ⟨rfl, rfl⟩

theorem removeValidator_ok_frame {sys sys' : Sys} {s v : Nat}
    (h : removeValidator sys s v = .ok sys') :
    sys'.desk.contributions = sys.desk.contributions ∧
    sys'.desk.contributionValidators = sys.desk.contributionValidators := by
  unfold removeValidator at h
  split_ifs at h <;> try exact Except.noConfusion h
  simp only [Except.ok.injEq] at h
  subst h
  exact ⟨rfl, rfl⟩

theorem setMinValidatorsRequired_ok_frame {sys sys' : Sys} {s m : Nat}
    (h : setMinValidatorsRequired sys s m = .ok sys') :
    sys'.desk.contributions = sys.desk.contributions := by
  unfold setMinValidatorsRequired at h
  split_ifs at h <;> try exact Except.noConfusion h
  simp only [Except.ok.injEq] at h
  subst h
  rfl

theorem setReviewPeriod_ok_frame {sys sys' : Sys} {s p : Nat}
    (h : setReviewPeriod sys s p = .ok sys') :
    sys'.desk.contributions = sys.desk.contributions := by
  unfold setReviewPeriod at h
  split_ifs at h <;> try exact Except.noConfusion h
  simp only [Except.ok.injEq] at h
  subst h
  rfl

theorem setCommunityPool_ok_frame {sys sys' : Sys} {s p : Nat}
    (h : setCommunityPool sys s p = .ok sys') :
    sys'.desk.contributions = sys.desk.contributions := by
  unfold setCommunityPool at h
  split_ifs at h <;> try exact Except.noConfusion h
  simp only [Except.ok.injEq] at h
  subst h
  rfl

theorem depositToPool_ok_frame {sys sys' : Sys} {s a : Nat}
    (h : depositToPool sys s a = .ok sys') : sys'.desk = sys.desk := by
  unfold depositToPool at h
  split_ifs at h <;> try exact Except.noConfusion h
  split at h
  · exact Except.noConfusion h
  · simp only [Except.ok.injEq] at h
    subst h
    rfl

theorem claimReward_ok_unfold {sys sys' : Sys} {sender id : Nat}
    (h : claimReward sys sender id = .ok sys') :
    ∃ c, sys.desk.contributions[id]? = some c ∧ c.status = .Approved ∧
      sys.desk.rewardClaimed.contains id = false ∧ sender = c.contributor ∧
      c.rewardAmount ≤ balanceOf sys.ledger sys.desk.communityPool ∧
      sys'.desk.contributions = sys.desk.contributions ∧
      sys'.desk.rewardClaimed = id :: sys.desk.rewardClaimed := by
  unfold claimReward at h
  split at h
  · exact Except.noConfusion h
  · next contrib hc =>
    dsimp only [] at h
    split at h
    · exact Except.noConfusion h
    next h1 =>
    split at h
    · exact Except.noConfusion h
    next h2 =>
    split at h
    · exact Except.noConfusion h
    next h3 =>
    split at h
    · exact Except.noConfusion h
    next h4 =>
    rcases poolWithdraw_ok_frame h with ⟨hd, _, _⟩
    refine ⟨contrib, hc, not_not.mp h1, ?_, not_not.mp h3, not_lt.mp h4, ?_, ?_⟩
    · revert h2
      cases sys.desk.rewardClaimed.contains id <;> simp
    · rw [hd]
    · rw [hd]

/-! ## The per-contribution status machine -/

/-- The admissible one-or-more-step evolutions of a contribution's
status: stay put, or finalize from `UnderReview` to a terminal status. -/
def statusStep (a b : ContributionStatus) : Prop :=
  b = a ∨ (a = .UnderReview ∧ (b = .Approved ∨ b = .Rejected))

theorem statusStep_refl (a : ContributionStatus) : statusStep a a := Or.inl rfl

theorem statusStep_trans {a b c : ContributionStatus}
    (h1 : statusStep a b) (h2 : statusStep b c) : statusStep a c := by
  rcases h1 with h1 | ⟨ha, hb⟩
  · subst h1; exact h2
  · rcases h2 with h2 | ⟨hb', _⟩
    · subst h2; exact Or.inr ⟨ha, hb⟩
    · rcases hb with hb | hb <;> subst hb <;> exact absurd hb' (by decide)

theorem getElem?_some_lt {α : Type} {l : List α} {i : Nat} {a : α}
    (h : l[i]? = some a) : i < l.length := by
  by_contra hlt
  rw [List.getElem?_eq_none (by omega)] at h
  exact Option.noConfusion h

theorem checkAndFinalize_statuses {sys sys' : Sys} {id : Nat}
    (h : checkAndFinalize sys id = .ok sys') :
    ∀ (j : Nat) (c : IndependentContribution), sys.desk.contributions[j]? = some c →
      ∃ c' : IndependentContribution,
        sys'.desk.contributions[j]? = some c' ∧ statusStep c.status c'.status := by
  intro j c hj
  cases hc : sys.desk.contributions[id]? with
  | none =>
    unfold checkAndFinalize at h
    rw [hc] at h
    exact Except.noConfusion h
  | some cid =>
    by_cases hst : cid.status = .UnderReview
    · have hset := checkAndFinalize_ok_spec h hc hst
      by_cases hji : j = id
      · subst hji
        rw [hj] at hc
        injection hc with hcc
        subst hcc
        refine ⟨{ c with status := if sys.desk.minValidatorsRequired ≤ c.approvalCount
                                   then .Approved else .Rejected }, ?_, ?_⟩
        · rw [hset]
          exact List.getElem?_set_eq_of_lt _ (getElem?_some_lt hj)
        · exact Or.inr ⟨hst, by split <;> simp⟩
      · refine ⟨c, ?_, statusStep_refl _⟩
        rw [hset, List.getElem?_set_ne (by omega)]
        exact hj
    · have hskip := checkAndFinalize_skip hc hst
      rw [hskip] at h
      injection h with h
      subst h
      exact ⟨c, hj, statusStep_refl _⟩

theorem vote_bump_status (cid : IndependentContribution) (approve : Bool) :
    (if approve then { cid with approvalCount := cid.approvalCount + 1 }
     else { cid with rejectionCount := cid.rejectionCount + 1 }).status = cid.status := by
  cases approve <;> rfl

theorem validatorVote_statuses {sys sys' : Sys} {sender now id : Nat} {approve : Bool}
    (h : validatorVote sys sender now id approve = .ok sys') :
    ∀ (j : Nat) (c : IndependentContribution), sys.desk.contributions[j]? = some c →
      ∃ c' : IndependentContribution,
        sys'.desk.contributions[j]? = some c' ∧ statusStep c.status c'.status := by
  rcases validatorVote_ok_unfold h with ⟨cid, hc, hst, _, _, _, hrest⟩
  dsimp only [] at hrest
  intro j c hj
  have hmid : ∀ l2 : List IndependentContribution,
      l2 = sys.desk.contributions.set id
        (if approve then { cid with approvalCount := cid.approvalCount + 1 }
         else { cid with rejectionCount := cid.rejectionCount + 1 }) →
      ∃ cm : IndependentContribution,
        l2[j]? = some cm ∧ statusStep c.status cm.status := by
    intro l2 hs2
    by_cases hji : j = id
    · subst hji
      rw [hj] at hc
      injection hc with hcc
      subst hcc
      refine ⟨(if approve then { c with approvalCount := c.approvalCount + 1 }
               else { c with rejectionCount := c.rejectionCount + 1 }), ?_, ?_⟩
      · rw [hs2]
        exact List.getElem?_set_eq_of_lt _ (getElem?_some_lt hj)
      · rw [vote_bump_status]
        exact statusStep_refl _
    · refine ⟨c, ?_, statusStep_refl _⟩
      rw [hs2, List.getElem?_set_ne (by omega)]
      exact hj
  rcases hrest with ⟨_, hcf⟩ | ⟨_, heq⟩
  · rcases hmid _ rfl with ⟨cm, hm, hsm⟩
    rcases checkAndFinalize_statuses hcf j cm hm with ⟨c2, h2, hs2⟩
    exact ⟨c2, h2, statusStep_trans hsm hs2⟩
  · subst heq
    exact hmid _ rfl

theorem transferTok_ok_frame {sys sys' : Sys} {a b amt : Nat}
    (h : applyOp sys (.transferTok a b amt) = .ok sys') : sys'.desk = sys.desk := by
  dsimp only [applyOp] at h
  split at h
  · exact Except.noConfusion h
  · simp only [Except.ok.injEq] at h
    subst h
    rfl

theorem runOp_statuses (sys : Sys) (op : DeskOp) :
    ∀ (j : Nat) (c : IndependentContribution), sys.desk.contributions[j]? = some c →
      ∃ c' : IndependentContribution,
        (runOp sys op).desk.contributions[j]? = some c' ∧ statusStep c.status c'.status := by
  intro j c hj
  unfold runOp
  cases happ : applyOp sys op with
  | error e => exact ⟨c, hj, statusStep_refl _⟩
  | ok s' =>
    cases op with
    | submit sender now t d de r =>
      rcases submitContribution_ok_contribs happ with ⟨newc, _, hap⟩
      refine ⟨c, ?_, statusStep_refl _⟩
      rw [hap, List.getElem?_append, if_pos (getElem?_some_lt hj)]
      exact hj
    | vote sender now id a => exact validatorVote_statuses happ j c hj
    | finalize now id =>
      rcases finalizeContribution_ok_unfold happ with ⟨_, _, _, _, hcf⟩
      exact checkAndFinalize_statuses hcf j c hj
    | addVal s v =>
      rw [(addValidator_ok_frame happ).1]
      exact ⟨c, hj, statusStep_refl _⟩
    | removeVal s v =>
      rw [(removeValidator_ok_frame happ).1]
      exact ⟨c, hj, statusStep_refl _⟩
    | setMinVals s m =>
      rw [setMinValidatorsRequired_ok_frame happ]
      exact ⟨c, hj, statusStep_refl _⟩
    | setPeriod s p =>
      rw [setReviewPeriod_ok_frame happ]
      exact ⟨c, hj, statusStep_refl _⟩
    | setPool s p =>
      rw [setCommunityPool_ok_frame happ]
      exact ⟨c, hj, statusStep_refl _⟩
    | deposit s a =>
      rw [depositToPool_ok_frame happ]
      exact ⟨c, hj, statusStep_refl _⟩
    | claim s id =>
      rcases claimReward_ok_unfold happ with ⟨_, _, _, _, _, _, hcon, _⟩
      rw [hcon]
      exact ⟨c, hj, statusStep_refl _⟩
    | transferTok a b amt =>
      rw [transferTok_ok_frame happ]
      exact ⟨c, hj, statusStep_refl _⟩

theorem runOps_statuses (sys : Sys) (ops : List DeskOp) :
    ∀ (j : Nat) (c : IndependentContribution), sys.desk.contributions[j]? = some c →
      ∃ c' : IndependentContribution,
        (runOps sys ops).desk.contributions[j]? = some c' ∧ statusStep c.status c'.status := by
  induction ops generalizing sys with
  | nil => exact fun j c hj => ⟨c, hj, statusStep_refl _⟩
  | cons op rest ih =>
    intro j c hj
    rcases runOp_statuses sys op j c hj with ⟨c1, h1, hs1⟩
    rcases ih (runOp sys op) j c1 h1 with ⟨c2, h2, hs2⟩
    exact ⟨c2, h2, statusStep_trans hs1 hs2⟩

/-- Whether a call succeeded (did not revert). -/
def callOk {α : Type} (r : Except Err α) : Bool :=
  match r with
  | .ok _ => true
  | .error _ => false

theorem assocGet_set_self {κ α : Type} [DecidableEq κ] (m : List (κ × α)) (k : κ) (v d : α) :
    assocGet (assocSet m k v) k d = v := by
  simp [assocGet, assocSet, List.find?]

theorem checkAndFinalize_ok_frame {sys sys' : Sys} {id : Nat}
    (h : checkAndFinalize sys id = .ok sys') :
    sys'.desk.validatorVotes = sys.desk.validatorVotes ∧
    sys'.desk.validators = sys.desk.validators ∧
    sys'.desk.validatorList = sys.desk.validatorList ∧
    sys'.desk.contributionValidators = sys.desk.contributionValidators ∧
    sys'.desk.minValidatorsRequired = sys.desk.minValidatorsRequired := by
  unfold checkAndFinalize at h
  split at h
  · exact Except.noConfusion h
  · dsimp only [] at h
    split at h
    · simp only [Except.ok.injEq] at h
      subst h
      exact ⟨rfl, rfl, rfl, rfl, rfl⟩
    · split at h
      · split at h
        · split at h
          · rcases poolWithdraw_ok_frame h with ⟨hd, _, _⟩
            rw [hd]
            exact ⟨rfl, rfl, rfl, rfl, rfl⟩
          · simp only [Except.ok.injEq] at h
            subst h
            exact ⟨rfl, rfl, rfl, rfl, rfl⟩
        · simp only [Except.ok.injEq] at h
          subst h
          exact ⟨rfl, rfl, rfl, rfl, rfl⟩
      · simp only [Except.ok.injEq] at h
        subst h
        exact ⟨rfl, rfl, rfl, rfl, rfl⟩

/-- C8: for every contribution and validator at most one vote is ever
recorded: a vote is settable only once, only by a currently registered
validator present in the contribution's assigned list, and only while the
contribution is `UnderReview`; a second vote by the same validator fails
and leaves the state (hence the tallies) unchanged. -/
theorem c8_one_vote_per_validator :
    ∀ (sys : Sys) (sender now id : Nat) (approve : Bool) (c : IndependentContribution),
      sys.desk.contributions[id]? = some c →
      ((assocGet sys.desk.validatorVotes (id, sender) VoteChoice.None ≠ .None →
        callOk (validatorVote sys sender now id approve) = false ∧
        runOp sys (.vote sender now id approve) = sys) ∧
       (∀ sys' : Sys, validatorVote sys sender now id approve = .ok sys' →
        c.status = .UnderReview ∧
        assocGet sys.desk.validators sender false = true ∧
        isAssignedValidator sys.desk id sender = true ∧
        assocGet sys.desk.validatorVotes (id, sender) VoteChoice.None = .None ∧
        assocGet sys'.desk.validatorVotes (id, sender) VoteChoice.None =
          (if approve then .Approve else .Reject))) := by
  intro sys sender now id approve c hc
  constructor
  · intro hv
    have hfail : callOk (validatorVote sys sender now id approve) = false := by
      unfold validatorVote
      rw [hc]
      dsimp only []
      split
      · rfl
      split
      · rfl
      split
      · rfl
      rfl
    refine ⟨hfail, ?_⟩
    unfold runOp
    dsimp only [applyOp]
    cases hres : validatorVote sys sender now id approve with
    | ok s' =>
      rw [hres] at hfail
      exact absurd hfail (by simp [callOk])
    | error e => rfl
  · intro sys' h
    rcases validatorVote_ok_unfold h with ⟨cid, hc2, hst, hval, hassa, hnone, hrest⟩
    rw [hc] at hc2
    injection hc2 with hcc
    subst hcc
    dsimp only [] at hrest
    refine ⟨hst, hval, hassa, hnone, ?_⟩
    rcases hrest with ⟨_, hcf⟩ | ⟨_, heq⟩
    · rw [(checkAndFinalize_ok_frame hcf).1]
      exact assocGet_set_self _ _ _ _
    · rw [heq]
      exact assocGet_set_self _ _ _ _

/-- C4: across every sequence of operations a contribution's status only
ever evolves by `statusStep` (stay, or `UnderReview` to a terminal
`Approved`/`Rejected`); and on a contribution that is not `UnderReview`,
`validatorVote` and `finalizeContribution` fail with
`ContributionNotUnderReview` and leave the state unchanged. -/
theorem c4_status_machine :
    ∀ (sys : Sys) (ops : List DeskOp) (j : Nat) (c : IndependentContribution),
      sys.desk.contributions[j]? = some c →
      (∃ c' : IndependentContribution,
        (runOps sys ops).desk.contributions[j]? = some c' ∧ statusStep c.status c'.status) ∧
      (c.status ≠ .UnderReview →
        ∀ (sender now : Nat) (approve : Bool),
          validatorVote sys sender now j approve = .error .contributionNotUnderReview ∧
          finalizeContribution sys now j = .error .contributionNotUnderReview ∧
          runOp sys (.vote sender now j approve) = sys ∧
          runOp sys (.finalize now j) = sys) := by
  intro sys ops j c hc
  refine ⟨runOps_statuses sys ops j c hc, ?_⟩
  intro hterm sender now approve
  have hv := @validatorVote_terminal_err sys sender now j approve c hc hterm
  have hf := @finalizeContribution_terminal_err sys now j c hc hterm
  refine ⟨hv, hf, ?_, ?_⟩
  · unfold runOp
    dsimp only [applyOp]
    rw [hv]
  · unfold runOp
    dsimp only [applyOp]
    rw [hf]

/-- C3: whenever finalization executes, via `finalizeContribution` after
the deadline or via a deadline-crossing `validatorVote`, the status
becomes `Approved` iff the approval count at that moment reaches
`minValidatorsRequired`, and `Rejected` otherwise; in particular a
contribution with zero approvals (quorum being positive) is `Rejected`. -/
theorem c3_quorum_decides :
    ∀ (sys sys' : Sys) (sender now id : Nat) (approve : Bool) (c : IndependentContribution),
      sys.desk.contributions[id]? = some c →
      ((finalizeContribution sys now id = .ok sys' →
        ∃ c' : IndependentContribution, sys'.desk.contributions[id]? = some c' ∧
          (c'.status = .Approved ↔ sys.desk.minValidatorsRequired ≤ c.approvalCount) ∧
          (c'.status = .Rejected ↔ ¬ sys.desk.minValidatorsRequired ≤ c.approvalCount) ∧
          (c.approvalCount = 0 → 0 < sys.desk.minValidatorsRequired → c'.status = .Rejected)) ∧
       (validatorVote sys sender now id approve = .ok sys' → c.reviewDeadline ≤ now →
        ∃ c' : IndependentContribution, sys'.desk.contributions[id]? = some c' ∧
          c'.approvalCount = c.approvalCount + (if approve then 1 else 0) ∧
          (c'.status = .Approved ↔ sys.desk.minValidatorsRequired ≤ c'.approvalCount) ∧
          (c'.status = .Rejected ↔ ¬ sys.desk.minValidatorsRequired ≤ c'.approvalCount))) := by
  intro sys sys' sender now id approve c hc
  constructor
  · intro h
    rcases finalizeContribution_ok_unfold h with ⟨c2, hc2, hst, _, hcf⟩
    rw [hc] at hc2
    injection hc2 with hcc
    subst hcc
    have hset := checkAndFinalize_ok_spec hcf hc hst
    refine ⟨{ c with status := if sys.desk.minValidatorsRequired ≤ c.approvalCount
                               then .Approved else .Rejected }, ?_, ?_⟩
    · rw [hset]
      exact List.getElem?_set_eq_of_lt _ (getElem?_some_lt hc)
    · by_cases hq : sys.desk.minValidatorsRequired ≤ c.approvalCount
      · rw [if_pos hq]
        refine ⟨by simp [hq], by simp [hq], ?_⟩
        intro h0 hmin
        omega
      · rw [if_neg hq]
        exact ⟨by simp [hq], by simp [hq], fun _ _ => rfl⟩
  · intro h hd
    rcases validatorVote_ok_unfold h with ⟨c2, hc2, hst, _, _, _, hrest⟩
    rw [hc] at hc2
    injection hc2 with hcc
    subst hcc
    dsimp only [] at hrest
    rcases hrest with ⟨_, hcf⟩ | ⟨hlt, _⟩
    · have hmidc :
        (sys.desk.contributions.set id
          (if approve then { c with approvalCount := c.approvalCount + 1 }
           else { c with rejectionCount := c.rejectionCount + 1 }))[id]? =
        some (if approve then { c with approvalCount := c.approvalCount + 1 }
              else { c with rejectionCount := c.rejectionCount + 1 }) :=
        List.getElem?_set_eq_of_lt _ (getElem?_some_lt hc)
      have hs2 := checkAndFinalize_ok_spec hcf hmidc (by rw [vote_bump_status]; exact hst)
      refine ⟨{ (if approve then { c with approvalCount := c.approvalCount + 1 }
                 else { c with rejectionCount := c.rejectionCount + 1 }) with
                status := if sys.desk.minValidatorsRequired ≤
                    (if approve then { c with approvalCount := c.approvalCount + 1 }
                     else { c with rejectionCount := c.rejectionCount + 1 }).approvalCount
                  then .Approved else .Rejected }, ?_, ?_, ?_⟩
      · rw [hs2]
        refine List.getElem?_set_eq_of_lt _ ?_
        rw [List.length_set]
        exact getElem?_some_lt hc
      · cases approve <;> simp
      · by_cases hq : sys.desk.minValidatorsRequired ≤
            (if approve then { c with approvalCount := c.approvalCount + 1 }
             else { c with rejectionCount := c.rejectionCount + 1 }).approvalCount
        · rw [if_pos hq]
          exact ⟨by simp [hq], by simp [hq]⟩
        · rw [if_neg hq]
          exact ⟨by simp [hq], by simp [hq]⟩
    · omega

/-- C7: when finalization approves a contribution whose positive reward
exceeds the pool balance, the call still succeeds, the status becomes
`Approved`, no tokens move, and the contributor's statistics and the
claim marks are untouched. -/
theorem c7_underfunded_approval :
    ∀ (sys : Sys) (now id : Nat) (c : IndependentContribution),
      sys.desk.contributions[id]? = some c →
      c.status = .UnderReview →
      c.reviewDeadline ≤ now →
      sys.desk.minValidatorsRequired ≤ c.approvalCount →
      0 < c.rewardAmount →
      balanceOf sys.ledger sys.desk.communityPool < c.rewardAmount →
      ∃ sys' : Sys, finalizeContribution sys now id = .ok sys' ∧
        sys'.desk.contributions[id]? = some { c with status := .Approved } ∧
        sys'.ledger = sys.ledger ∧
        sys'.desk.contributorStats = sys.desk.contributorStats ∧
        sys'.desk.rewardClaimed = sys.desk.rewardClaimed := by
  intro sys now id c hc hst hd hq hr hb
  refine ⟨{ sys with desk := { sys.desk with
      contributions := sys.desk.contributions.set id { c with status := .Approved } } },
    ?_, ?_, rfl, rfl, rfl⟩
  · unfold finalizeContribution
    rw [hc]
    dsimp only []
    rw [if_neg (by simp [hst]), if_neg (by omega)]
    unfold checkAndFinalize
    rw [hc]
    dsimp only []
    rw [if_neg (by simp [hst])]
    rw [if_pos hq]
    by_cases hp : sys.desk.communityPool = 0
    · rw [if_neg (by simp [hp])]
    · rw [if_pos ⟨hr, hp⟩, if_neg (by omega)]
  · exact List.getElem?_set_eq_of_lt _ (getElem?_some_lt hc)

/-- C2 (spec-modelled `claimReward`): a claim succeeds only when called by
the original contributor of an `Approved` contribution whose reward was
neither paid at finalization nor claimed before; a successful claim marks
the contribution claimed, so any second claim fails with
`RewardAlreadyClaimed`; a claim on an already-claimed-or-paid contribution
fails, and a claim on a non-Approved contribution fails. -/
theorem c2_claim_at_most_once :
    ∀ (sys sys' : Sys) (sender id : Nat) (c : IndependentContribution),
      sys.desk.contributions[id]? = some c →
      ((claimReward sys sender id = .ok sys' →
        sender = c.contributor ∧ c.status = .Approved ∧
        sys.desk.rewardClaimed.contains id = false ∧
        ∀ x : Nat, claimReward sys' x id = .error .rewardAlreadyClaimed) ∧
       (c.status ≠ .Approved → ∀ x : Nat, callOk (claimReward sys x id) = false) ∧
       (sys.desk.rewardClaimed.contains id = true →
        ∀ x : Nat, callOk (claimReward sys x id) = false)) := by
  intro sys sys' sender id c hc
  refine ⟨?_, ?_, ?_⟩
  · intro h
    rcases claimReward_ok_unfold h with ⟨c2, hc2, hap, hncl, hsend, _, hcon, hclm⟩
    rw [hc] at hc2
    injection hc2 with hcc
    subst hcc
    refine ⟨hsend, hap, hncl, ?_⟩
    intro x
    unfold claimReward
    rw [hcon, hc]
    dsimp only []
    rw [if_neg (by simp [hap])]
    rw [if_pos (by rw [hclm]; simp)]
  · intro hst x
    unfold claimReward
    rw [hc]
    dsimp only []
    rw [if_pos hst]
    rfl
  · intro hcl x
    unfold claimReward
    rw [hc]
    dsimp only []
    by_cases hst : c.status = .Approved
    · rw [if_neg (by simp [hst]), if_pos hcl]
      rfl
    · rw [if_pos hst]
      rfl

/-- Run a research-desk call with EVM revert semantics: a reverted call
leaves the pre-state. -/
def rdRun (sys : RSys) (r : Except Err RSys) : RSys :=
  match r with
  | .ok s => s
  | .error _ => sys

/-- C9: `requestResearch` is atomic — if the transfer-from-allowance pull
of the request cost fails, the whole call reverts: no request is
recorded, the open-tracking list is unchanged, and the total request
count is unchanged. -/
theorem c9_requestResearch_atomic :
    ∀ (sys : RSys) (sender now : Nat) (query : String),
      sys.ledger.transferFrom sys.deskAddr sender sys.deskAddr sys.desk.requestCost = none →
      callOk (requestResearch sys sender now query) = false ∧
      rdRun sys (requestResearch sys sender now query) = sys ∧
      (rdRun sys (requestResearch sys sender now query)).desk.requests = sys.desk.requests ∧
      (rdRun sys (requestResearch sys sender now query)).desk.openRequestIds =
        sys.desk.openRequestIds ∧
      (rdRun sys (requestResearch sys sender now query)).desk.requests.length =
        sys.desk.requests.length := by
  intro sys sender now query ht
  have hfail : callOk (requestResearch sys sender now query) = false := by
    unfold requestResearch
    dsimp only []
    split
    · rfl
    split
    · rfl
    split
    · rfl
    rw [ht]
    rfl
  have hrun : rdRun sys (requestResearch sys sender now query) = sys := by
    unfold rdRun
    cases hres : requestResearch sys sender now query with
    | ok s => rw [hres] at hfail; exact absurd hfail (by simp [callOk])
    | error e => rfl
  exact ⟨hfail, hrun, by rw [hrun], by rw [hrun], by rw [hrun]⟩

theorem uniqueApprovedContributors_nil :
    ∀ (cs : List IndependentContribution),
      (∀ c ∈ cs, c.status ≠ ContributionStatus.Approved) →
      uniqueApprovedContributors cs = [] := by
  have aux : ∀ (cs : List IndependentContribution) (acc : List Nat),
      (∀ c ∈ cs, c.status ≠ ContributionStatus.Approved) →
      cs.foldl (fun acc c =>
        if c.status = ContributionStatus.Approved ∧ ¬ acc.contains c.contributor
        then acc ++ [c.contributor] else acc) acc = acc := by
    intro cs
    induction cs with
    | nil => intro acc _; rfl
    | cons c rest ih =>
      intro acc h
      have hcr := h c (by simp)
      simp only [List.foldl_cons]
      rw [if_neg (by simp [hcr])]
      exact ih acc (fun c' hm => h c' (by simp [hm]))
  intro cs h
  exact aux cs [] h

/-- C10: with a non-empty validator list and no Approved contribution,
`getTopContributors` aborts with an arithmetic underflow (the sort's
`n - 1` loop bound with `n = 0`) for every limit, instead of returning an
empty list; with an empty validator list it returns an empty list. -/
theorem c10_topContributors_underflow :
    ∀ (sys : Sys) (limit : Nat),
      (sys.desk.validatorList.length ≠ 0 →
        (∀ c ∈ sys.desk.contributions, c.status ≠ ContributionStatus.Approved) →
        getTopContributors sys limit = .error .underflow) ∧
      (sys.desk.validatorList.length = 0 → getTopContributors sys limit = .ok []) := by
  intro sys limit
  constructor
  · intro hne hnoapp
    unfold getTopContributors
    dsimp only []
    rw [if_neg hne]
    rw [uniqueApprovedContributors_nil _ hnoapp]
    rfl
  · intro hz
    unfold getTopContributors
    dsimp only []
    rw [if_pos hz]

deriving instance DecidableEq for Except

def c5Sys0 : Sys :=
  { ledger := { balances := [], allowances := [] }
    pool := { owner := 1, contributionDesk := 0 }
    desk := { owner := 1, communityPool := 0, reviewPeriod := 10,
              minValidatorsRequired := 1, maxValidators := 1,
              validators := [], validatorList := [], contributorStats := [],
              contributions := [], validatorVotes := [], validatorVoteTimestamps := [],
              contributionValidators := [], nextValidatorIndex := 0, rewardClaimed := [] }
    deskAddr := 5 }

/-- Reachable state for the C5 counterexample: add validator 7, submit a
contribution (7 gets assigned), then remove 7 from the panel. -/
def c5Sys : Sys :=
  runOps c5Sys0 [.addVal 1 7, .submit 2 0 "T" "D" "" 0, .removeVal 1 7]

/-- C5 counterexample: contribution 0 is `UnderReview`, validator 7 is in
its frozen assigned list and has not voted, yet 7's vote fails with
`NotValidator` after 7 was removed from the panel — removing a panel
validator after submission does change who may vote. -/
theorem c5_counterexample :
    (c5Sys.desk.contributions[0]?.map (fun c => c.status) =
      some ContributionStatus.UnderReview) ∧
    isAssignedValidator c5Sys.desk 0 7 = true ∧
    assocGet c5Sys.desk.validatorVotes (0, 7) VoteChoice.None = VoteChoice.None ∧
    validatorVote c5Sys 7 1 0 true = .error .notValidator := by decide

/-- C5 (amended): a vote needs both the frozen assignment and current
panel membership: an assigned, still-registered, not-yet-voted validator
can vote on an `UnderReview` contribution before its deadline; a
non-assigned caller can never vote (so adding validators later enables
nobody on existing contributions); and `addValidator`/`removeValidator`
never change the frozen per-contribution assigned lists. -/
theorem c5_amended_frozen_assignment :
    ∀ (sys : Sys) (sender now id : Nat) (approve : Bool) (c : IndependentContribution),
      sys.desk.contributions[id]? = some c →
      ((c.status = .UnderReview →
        assocGet sys.desk.validators sender false = true →
        isAssignedValidator sys.desk id sender = true →
        assocGet sys.desk.validatorVotes (id, sender) VoteChoice.None = .None →
        now < c.reviewDeadline →
        callOk (validatorVote sys sender now id approve) = true) ∧
       (isAssignedValidator sys.desk id sender = false →
        callOk (validatorVote sys sender now id approve) = false) ∧
       (∀ (s v : Nat) (sys' : Sys), addValidator sys s v = .ok sys' →
          sys'.desk.contributionValidators = sys.desk.contributionValidators) ∧
       (∀ (s v : Nat) (sys' : Sys), removeValidator sys s v = .ok sys' →
          sys'.desk.contributionValidators = sys.desk.contributionValidators)) := by
  intro sys sender now id approve c hc
  refine ⟨?_, ?_, fun s v sys' h => (addValidator_ok_frame h).2,
          fun s v sys' h => (removeValidator_ok_frame h).2⟩
  · intro hst hval hass hnone hlt
    unfold validatorVote
    rw [hc]
    dsimp only []
    rw [if_neg (by simp [hst])]
    rw [if_neg (by simp [hval])]
    rw [if_neg (by simp [hass])]
    rw [if_neg (by simp [hnone])]
    rw [if_neg (by omega)]
    rfl
  · intro hass
    unfold validatorVote
    rw [hc]
    dsimp only []
    split
    · rfl
    split
    · rfl
    rw [if_pos (by simp [hass])]
    rfl

def c6Sys : Sys :=
  { ledger := { balances := [], allowances := [] }
    pool := { owner := 1, contributionDesk := 0 }
    desk := { owner := 1, communityPool := 0, reviewPeriod := 10,
              minValidatorsRequired := 1, maxValidators := 1,
              validators := [(7, true)], validatorList := [7], contributorStats := [],
              contributions := [], validatorVotes := [], validatorVoteTimestamps := [],
              contributionValidators := [], nextValidatorIndex := 0, rewardClaimed := [] }
    deskAddr := 5 }

/-- C6 counterexample: with panel size 1 equal to the minimum quorum, the
owner's `removeValidator` succeeds and leaves the panel smaller than the
configured quorum — `removeValidator` has no quorum check. -/
theorem c6_counterexample :
    c6Sys.desk.minValidatorsRequired = c6Sys.desk.validatorList.length ∧
    callOk (removeValidator c6Sys 1 7) = true ∧
    (runOp c6Sys (.removeVal 1 7)).desk.validatorList.length = 0 ∧
    (runOp c6Sys (.removeVal 1 7)).desk.validatorList.length <
      (runOp c6Sys (.removeVal 1 7)).desk.minValidatorsRequired := by decide

/-- C6 (amended): `removeValidator` checks only ownership and current
membership and succeeds regardless of `minValidatorsRequired`, so the
panel can drop below the configured quorum; the `min ≤ panel size` bound
is enforced only by `setMinValidatorsRequired` at its own call time. -/
theorem c6_amended_no_quorum_check :
    ∀ (sys : Sys) (sender v : Nat),
      (callOk (removeValidator sys sender v) = true ↔
        (sender = sys.desk.owner ∧ assocGet sys.desk.validators v false = true)) ∧
      (∀ (m : Nat) (sys' : Sys), setMinValidatorsRequired sys sender m = .ok sys' →
        0 < m ∧ m ≤ sys.desk.validatorList.length) := by
  intro sys sender v
  constructor
  · unfold removeValidator
    split
    · next hown => simp [callOk, hown]
    · next hown =>
      split
      · next hval =>
        simp only [callOk]
        constructor
        · intro hh
          exact absurd hh (by simp)
        · intro hh
          rw [hval] at hh
          exact absurd hh.2 (by simp)
      · next hval =>
        simp only [callOk]
        refine ⟨fun _ => ⟨not_not.mp hown, ?_⟩, fun _ => by trivial⟩
        revert hval
        cases assocGet sys.desk.validators v false <;> simp
  · intro m sys' h
    unfold setMinValidatorsRequired at h
    split_ifs at h <;> try exact Except.noConfusion h
    next h1 h2 h3 => exact ⟨by omega, by omega⟩

def c1Sys0 : RSys :=
  { ledger := { balances := [(2, 1000)], allowances := [((2, 5), 25)] }
    desk := { owner := 1, requestCost := 25, maxQueryLength := 256,
              requests := [], openRequestIds := [], openRequestIndex := [],
              pendingByUser := [], pendingIndexByUser := [] }
    deskAddr := 5 }

/-- State after one successful research request of cost 25. -/
def c1Sys : RSys := rdRun c1Sys0 (requestResearch c1Sys0 2 100 "Open request")

/-- C1 (divergence): after one successful request of cost 25 the desk
holds 25 and the reserved sum (payments of non-fulfilled requests) is 25,
so by the spec any positive administrator withdrawal must fail; yet
`withdraw` of the full 25 succeeds — the `src` withdraw has no
reservation check (the repository's own tests expect
`ExceedsWithdrawable` here). -/
theorem c1_withdraw_ignores_reservation :
    reservedSum c1Sys.desk = 25 ∧
    balanceOf c1Sys.ledger c1Sys.deskAddr = 25 ∧
    balanceOf c1Sys.ledger c1Sys.deskAddr - reservedSum c1Sys.desk < 25 ∧
    callOk (rdWithdraw c1Sys 1 1 25) = true := by decide

def c2c0 : IndependentContribution :=
  { contributor := 2, title := "T", documentHash := "D", description := "",
    submittedAt := 0, reviewDeadline := 10, rewardAmount := 100,
    status := .Approved, validators := [7], approvalCount := 1, rejectionCount := 0 }

def w2Sys : Sys :=
  { ledger := { balances := [(9, 500)], allowances := [] }
    pool := { owner := 1, contributionDesk := 5 }
    desk := { owner := 1, communityPool := 9, reviewPeriod := 10,
              minValidatorsRequired := 1, maxValidators := 1,
              validators := [(7, true)], validatorList := [7], contributorStats := [],
              contributions := [c2c0], validatorVotes := [], validatorVoteTimestamps := [],
              contributionValidators := [(0, [7])], nextValidatorIndex := 0, rewardClaimed := [] }
    deskAddr := 5 }

def w2SysC : Sys := runOp w2Sys (.claim 2 0)

theorem c2_witness :
    2 = c2c0.contributor ∧ c2c0.status = .Approved ∧
    w2Sys.desk.rewardClaimed.contains 0 = false ∧
    ∀ x : Nat, claimReward w2SysC x 0 = .error .rewardAlreadyClaimed :=
  (c2_claim_at_most_once w2Sys w2SysC 2 0 c2c0 (by decide)).1 (by decide)

def c3c0 : IndependentContribution :=
  { contributor := 2, title := "T", documentHash := "D", description := "",
    submittedAt := 0, reviewDeadline := 10, rewardAmount := 0,
    status := .UnderReview, validators := [7], approvalCount := 1, rejectionCount := 0 }

def w3Sys : Sys :=
  { ledger := { balances := [], allowances := [] }
    pool := { owner := 1, contributionDesk := 5 }
    desk := { owner := 1, communityPool := 0, reviewPeriod := 10,
              minValidatorsRequired := 1, maxValidators := 1,
              validators := [(7, true)], validatorList := [7], contributorStats := [],
              contributions := [c3c0], validatorVotes := [], validatorVoteTimestamps := [],
              contributionValidators := [(0, [7])], nextValidatorIndex := 0, rewardClaimed := [] }
    deskAddr := 5 }

def w3SysF : Sys := runOp w3Sys (.finalize 10 0)

theorem c3_witness :
    ∃ c' : IndependentContribution, w3SysF.desk.contributions[0]? = some c' ∧
      (c'.status = .Approved ↔ w3Sys.desk.minValidatorsRequired ≤ c3c0.approvalCount) ∧
      (c'.status = .Rejected ↔ ¬ w3Sys.desk.minValidatorsRequired ≤ c3c0.approvalCount) ∧
      (c3c0.approvalCount = 0 → 0 < w3Sys.desk.minValidatorsRequired →
        c'.status = .Rejected) :=
  (c3_quorum_decides w3Sys w3SysF 0 10 0 true c3c0 (by decide)).1 (by decide)

def c4c0 : IndependentContribution :=
  { contributor := 2, title := "T", documentHash := "D", description := "",
    submittedAt := 0, reviewDeadline := 10, rewardAmount := 0,
    status := .Approved, validators := [7], approvalCount := 1, rejectionCount := 0 }

def w4Sys : Sys :=
  { ledger := { balances := [], allowances := [] }
    pool := { owner := 1, contributionDesk := 5 }
    desk := { owner := 1, communityPool := 0, reviewPeriod := 10,
              minValidatorsRequired := 1, maxValidators := 1,
              validators := [(7, true)], validatorList := [7], contributorStats := [],
              contributions := [c4c0], validatorVotes := [], validatorVoteTimestamps := [],
              contributionValidators := [(0, [7])], nextValidatorIndex := 0, rewardClaimed := [] }
    deskAddr := 5 }

theorem c4_witness :
    (∃ c' : IndependentContribution,
      (runOps w4Sys [.finalize 11 0]).desk.contributions[0]? = some c' ∧
      statusStep c4c0.status c'.status) ∧
    (validatorVote w4Sys 7 11 0 true = .error .contributionNotUnderReview ∧
     finalizeContribution w4Sys 11 0 = .error .contributionNotUnderReview ∧
     runOp w4Sys (.vote 7 11 0 true) = w4Sys ∧
     runOp w4Sys (.finalize 11 0) = w4Sys) := by
  have h := c4_status_machine w4Sys [.finalize 11 0] 0 c4c0 (by decide)
  exact ⟨h.1, h.2 (by decide) 7 11 true⟩

def c5wc0 : IndependentContribution :=
  { contributor := 2, title := "T", documentHash := "D", description := "",
    submittedAt := 0, reviewDeadline := 10, rewardAmount := 0,
    status := .UnderReview, validators := [7], approvalCount := 0, rejectionCount := 0 }

def w5Sys : Sys :=
  { ledger := { balances := [], allowances := [] }
    pool := { owner := 1, contributionDesk := 5 }
    desk := { owner := 1, communityPool := 0, reviewPeriod := 10,
              minValidatorsRequired := 1, maxValidators := 1,
              validators := [(7, true)], validatorList := [7], contributorStats := [],
              contributions := [c5wc0], validatorVotes := [], validatorVoteTimestamps := [],
              contributionValidators := [(0, [7])], nextValidatorIndex := 0, rewardClaimed := [] }
    deskAddr := 5 }

theorem c5_witness :
    callOk (validatorVote w5Sys 7 1 0 true) = true :=
  (c5_amended_frozen_assignment w5Sys 7 1 0 true c5wc0 (by decide)).1
    (by decide) (by decide) (by decide) (by decide) (by decide)

theorem c6_witness :
    (callOk (removeValidator c6Sys 1 7) = true ↔
      (1 = c6Sys.desk.owner ∧ assocGet c6Sys.desk.validators 7 false = true)) ∧
    (0 < 1 ∧ 1 ≤ c6Sys.desk.validatorList.length) := by
  have h := c6_amended_no_quorum_check c6Sys 1 7
  exact ⟨h.1, h.2 1 (runOp c6Sys (.setMinVals 1 1)) (by decide)⟩

def c7c0 : IndependentContribution :=
  { contributor := 2, title := "T", documentHash := "D", description := "",
    submittedAt := 0, reviewDeadline := 10, rewardAmount := 100,
    status := .UnderReview, validators := [7], approvalCount := 1, rejectionCount := 0 }

def w7Sys : Sys :=
  { ledger := { balances := [], allowances := [] }
    pool := { owner := 1, contributionDesk := 5 }
    desk := { owner := 1, communityPool := 9, reviewPeriod := 10,
              minValidatorsRequired := 1, maxValidators := 1,
              validators := [(7, true)], validatorList := [7], contributorStats := [],
              contributions := [c7c0], validatorVotes := [], validatorVoteTimestamps := [],
              contributionValidators := [(0, [7])], nextValidatorIndex := 0, rewardClaimed := [] }
    deskAddr := 5 }

theorem c7_witness :
    ∃ sys' : Sys, finalizeContribution w7Sys 10 0 = .ok sys' ∧
      sys'.desk.contributions[0]? = some { c7c0 with status := .Approved } ∧
      sys'.ledger = w7Sys.ledger ∧
      sys'.desk.contributorStats = w7Sys.desk.contributorStats ∧
      sys'.desk.rewardClaimed = w7Sys.desk.rewardClaimed :=
  c7_underfunded_approval w7Sys 10 0 c7c0 (by decide) (by decide) (by decide)
    (by decide) (by decide) (by decide)

def c8c0 : IndependentContribution :=
  { contributor := 2, title := "T", documentHash := "D", description := "",
    submittedAt := 0, reviewDeadline := 10, rewardAmount := 0,
    status := .UnderReview, validators := [7], approvalCount := 1, rejectionCount := 0 }

def w8Sys : Sys :=
  { ledger := { balances := [], allowances := [] }
    pool := { owner := 1, contributionDesk := 5 }
    desk := { owner := 1, communityPool := 0, reviewPeriod := 10,
              minValidatorsRequired := 1, maxValidators := 1,
              validators := [(7, true)], validatorList := [7], contributorStats := [],
              contributions := [c8c0], validatorVotes := [((0, 7), VoteChoice.Approve)],
              validatorVoteTimestamps := [((0, 7), 1)],
              contributionValidators := [(0, [7])], nextValidatorIndex := 0, rewardClaimed := [] }
    deskAddr := 5 }

theorem c8_witness :
    callOk (validatorVote w8Sys 7 2 0 true) = false ∧
    runOp w8Sys (.vote 7 2 0 true) = w8Sys :=
  (c8_one_vote_per_validator w8Sys 7 2 0 true c8c0 (by decide)).1 (by decide)

def w9Sys : RSys :=
  { ledger := { balances := [(2, 1000)], allowances := [] }
    desk := { owner := 1, requestCost := 25, maxQueryLength := 256,
              requests := [], openRequestIds := [], openRequestIndex := [],
              pendingByUser := [], pendingIndexByUser := [] }
    deskAddr := 5 }

theorem c9_witness :
    callOk (requestResearch w9Sys 2 100 "abc") = false ∧
    rdRun w9Sys (requestResearch w9Sys 2 100 "abc") = w9Sys ∧
    (rdRun w9Sys (requestResearch w9Sys 2 100 "abc")).desk.requests = w9Sys.desk.requests ∧
    (rdRun w9Sys (requestResearch w9Sys 2 100 "abc")).desk.openRequestIds =
      w9Sys.desk.openRequestIds ∧
    (rdRun w9Sys (requestResearch w9Sys 2 100 "abc")).desk.requests.length =
      w9Sys.desk.requests.length :=
  c9_requestResearch_atomic w9Sys 2 100 "abc" (by decide)

def w10c0 : IndependentContribution :=
  { contributor := 2, title := "T", documentHash := "D", description := "",
    submittedAt := 0, reviewDeadline := 10, rewardAmount := 0,
    status := .UnderReview, validators := [7], approvalCount := 0, rejectionCount := 0 }

def w10Sys : Sys :=
  { ledger := { balances := [], allowances := [] }
    pool := { owner := 1, contributionDesk := 5 }
    desk := { owner := 1, communityPool := 0, reviewPeriod := 10,
              minValidatorsRequired := 1, maxValidators := 1,
              validators := [(7, true)], validatorList := [7], contributorStats := [],
              contributions := [w10c0], validatorVotes := [], validatorVoteTimestamps := [],
              contributionValidators := [(0, [7])], nextValidatorIndex := 0, rewardClaimed := [] }
    deskAddr := 5 }

def w10c1 : IndependentContribution :=
  { contributor := 2, title := "T", documentHash := "D", description := "",
    submittedAt := 0, reviewDeadline := 10, rewardAmount := 0,
    status := .Approved, validators := [], approvalCount := 1, rejectionCount := 0 }

def w10SysE : Sys :=
  { ledger := { balances := [], allowances := [] }
    pool := { owner := 1, contributionDesk := 5 }
    desk := { owner := 1, communityPool := 0, reviewPeriod := 10,
              minValidatorsRequired := 1, maxValidators := 1,
              validators := [], validatorList := [], contributorStats := [],
              contributions := [w10c1], validatorVotes := [], validatorVoteTimestamps := [],
              contributionValidators := [], nextValidatorIndex := 0, rewardClaimed := [] }
    deskAddr := 5 }

theorem c10_witness :
    getTopContributors w10Sys 3 = .error .underflow ∧
    getTopContributors w10SysE 3 = .ok [] :=
  ⟨(c10_topContributors_underflow w10Sys 3).1 (by decide) (by decide),
   (c10_topContributors_underflow w10SysE 3).2 (by decide)⟩
